import Mathlib

/-!
Verification development for the observability core of llmnova-hydra-Gamma-1
(gamma_engine.core.metrics / tracing / alerting).  The Python modules
themselves are not shipped in this snapshot of the repository; the model
below is reconstructed from the specification and from the repository's own
documentation (docs/OBSERVABILITY.md, the phase-6 plan and walkthrough),
which record the intended data model, operations and exact export formats.
Metric values are modelled as rationals (the code uses floats; the properties
under study are arithmetic identities, orderings and structural facts that do
not depend on rounding).
-/

/-- Modelled from the spec: metric identity is a pair of a name and a
label-set; the label-set is an ordered mapping of string keys to string
values whose insertion order is irrelevant.  Labels are canonicalised by
sorting on the key so that two insertion orders denote the same series. -/
def canonLabels (lb : List (String × String)) : List (String × String) :=
  lb.insertionSort (fun a b => a.1 ≤ b.1)

/-- Modelled from the spec: the identity of one metric series. -/
structure MetricKey where
  name : String
  labels : List (String × String)
deriving DecidableEq, Repr

/-- Modelled from the spec: the closed set of metric kinds.  A counter is a
monotonically increasing total, a gauge is a last-write-wins scalar, and a
histogram keeps a running count and sum plus a bounded sample reservoir. -/
inductive Metric where
  | counter (total : Rat)
  | gauge (value : Rat)
  | histogram (count : Nat) (sum : Rat) (samples : List Rat)
deriving DecidableEq, Repr

/-- Modelled from the spec: the in-memory metrics registry
(`MetricsCollector` in gamma_engine/core/metrics.py, absent from the
snapshot): a map from series identity to metric state, the reservoir
capacity, and the enabled flag toggled by `disable()`. -/
structure MetricsRegistry where
  series : List (MetricKey × Metric)
  maxSamples : Nat
  enabled : Bool
deriving Repr

/-- Association-list lookup of a series by its exact key. -/
def lookupSeries : List (MetricKey × Metric) → MetricKey → Option Metric
  | [], _ => none
  | (k', m) :: rest, k => if k' = k then some m else lookupSeries rest k

/-- Association-list update of a series, appending when the key is new. -/
def updateSeries : List (MetricKey × Metric) → MetricKey → Metric → List (MetricKey × Metric)
  | [], k, m => [(k, m)]
  | (k', m') :: rest, k, m =>
    if k' = k then (k, m) :: rest else (k', m') :: updateSeries rest k m

/-- Modelled from the spec: a fresh registry as created at startup. -/
def emptyRegistry : MetricsRegistry :=
  { series := [], maxSamples := 1000, enabled := true }

/-- Modelled from the spec: `get_metric(name, labels)` returns the series
state, or an explicit absent result (never an exception). -/
def getMetric (r : MetricsRegistry) (n : String) (lb : List (String × String)) :
    Option Metric :=
  lookupSeries r.series { name := n, labels := canonLabels lb }

/-- Modelled from the spec: `increment(name, delta, labels)` adds a delta to
a counter series, creating it at the delta when absent; a no-op when the
registry is disabled, and a defensive no-op on a kind mismatch. -/
def increment (r : MetricsRegistry) (n : String) (delta : Rat)
    (lb : List (String × String)) : MetricsRegistry :=
  if !r.enabled then r
  else
    let k : MetricKey := { name := n, labels := canonLabels lb }
    match lookupSeries r.series k with
    | some (Metric.counter t) =>
        { r with series := updateSeries r.series k (Metric.counter (t + delta)) }
    | some _ => r
    | none => { r with series := updateSeries r.series k (Metric.counter delta) }

/-- Modelled from the spec: append a sample to the capped reservoir, keeping
only the most recent `cap` samples (the oldest beyond capacity is evicted). -/
def pushSample (cap : Nat) (samples : List Rat) (v : Rat) : List Rat :=
  let s := samples ++ [v]
  s.drop (s.length - cap)

/-- Modelled from the spec: `record(name, value, labels)` updates the running
count and sum and appends the value to the capped reservoir; a no-op when the
registry is disabled. -/
def record (r : MetricsRegistry) (n : String) (v : Rat)
    (lb : List (String × String)) : MetricsRegistry :=
  if !r.enabled then r
  else
    let k : MetricKey := { name := n, labels := canonLabels lb }
    match lookupSeries r.series k with
    | some (Metric.histogram c s smp) =>
        let m := Metric.histogram (c + 1) (s + v) (pushSample r.maxSamples smp v)
        { r with series := updateSeries r.series k m }
    | some _ => r
    | none =>
        let m := Metric.histogram 1 v (pushSample r.maxSamples [] v)
        { r with series := updateSeries r.series k m }

/-- Modelled from the spec: `set_gauge(name, value, labels)` stores a
last-write-wins scalar; a no-op when the registry is disabled. -/
def setGauge (r : MetricsRegistry) (n : String) (v : Rat)
    (lb : List (String × String)) : MetricsRegistry :=
  if !r.enabled then r
  else
    let k : MetricKey := { name := n, labels := canonLabels lb }
    match lookupSeries r.series k with
    | some (Metric.gauge _) =>
        { r with series := updateSeries r.series k (Metric.gauge v) }
    | some _ => r
    | none => { r with series := updateSeries r.series k (Metric.gauge v) }

/-- Modelled from the spec: host statistics sampled through the narrow
OS-stat collaborator (psutil in the Python code). -/
structure SystemStats where
  cpuPercent : Rat
  memoryPercent : Rat
  memoryMb : Rat
  diskPercent : Rat
deriving DecidableEq, Repr

/-- Modelled from the spec: `collect_system_metrics()` samples CPU, memory
and disk from the host and writes them as gauges. -/
def collectSystemMetrics (r : MetricsRegistry) (st : SystemStats) : MetricsRegistry :=
  let r1 := setGauge r "system.cpu_percent" st.cpuPercent []
  let r2 := setGauge r1 "system.memory_percent" st.memoryPercent []
  let r3 := setGauge r2 "system.memory_mb" st.memoryMb []
  setGauge r3 "system.disk_percent" st.diskPercent []

/-- Modelled from the spec: `disable()` makes every mutating call a no-op. -/
def disable (r : MetricsRegistry) : MetricsRegistry := { r with enabled := false }

/-- Modelled from the spec: `reset()` clears all series. -/
def reset (r : MetricsRegistry) : MetricsRegistry := { r with series := [] }

/-- Nearest-rank index into a sorted reservoir of length `n` for percentile
`p`: rank `⌈p·n/100⌉`, clamped into the list. -/
def nearestRankIndex (n p : Nat) : Nat :=
  min (n - 1) ((p * n + 99) / 100 - 1)

/-- Modelled from the spec: nearest-rank selection from an already sorted
sample list (0 on an empty reservoir). -/
def nearestRank (sorted : List Rat) (p : Nat) : Rat :=
  sorted.getD (nearestRankIndex sorted.length p) 0

/-- Modelled from the spec: percentiles are computed by sorting the retained
samples and taking nearest-rank selection. -/
def percentile (samples : List Rat) (p : Nat) : Rat :=
  nearestRank (samples.insertionSort (fun a b => a ≤ b)) p

/-- Modelled from the spec: how one '.'-separated metric name is written in
the Prometheus text export — every dot replaced by an underscore, as in the
documented output where agent.runs.total is exported as agent_runs_total. -/
def sanitizeName (n : String) : String :=
  String.mk (n.data.map (fun c => if c = '.' then '_' else c))

/-- Modelled from the spec: one line of the Prometheus text exposition,
kept structured so that the metric name, kind and value carried by each
line are explicit. -/
inductive PromLine where
  | help (metric : String) (text : String)
  | typ (metric : String) (kind : String)
  | sample (metric : String) (value : Rat)
deriving DecidableEq, Repr

/-- The metric name carried by a Prometheus line. -/
def promLineName : PromLine → String
  | PromLine.help m _ => m
  | PromLine.typ m _ => m
  | PromLine.sample m _ => m

/-- The kind word written on a TYPE line. -/
def metricKind : Metric → String
  | Metric.counter _ => "counter"
  | Metric.gauge _ => "gauge"
  | Metric.histogram _ _ _ => "histogram"

/-- Modelled from the spec: the block of Prometheus lines for one series,
following the output documented in docs/OBSERVABILITY.md — a HELP line whose
help text is the original dotted name, a TYPE line, then the sample line for
a counter or gauge, and the aggregate lines suffixed with underscore-count,
underscore-sum, then the p50 and p95 lines for a histogram. -/
def promLinesFor (k : MetricKey) (m : Metric) : List PromLine :=
  let s := sanitizeName k.name
  match m with
  | Metric.counter t =>
      [PromLine.help s k.name, PromLine.typ s "counter", PromLine.sample s t]
  | Metric.gauge v =>
      [PromLine.help s k.name, PromLine.typ s "gauge", PromLine.sample s v]
  | Metric.histogram c sum smp =>
      [PromLine.help s k.name, PromLine.typ s "histogram",
       PromLine.sample (s ++ "_count") (c : Rat),
       PromLine.sample (s ++ "_sum") sum,
       PromLine.sample (s ++ "_p50") (percentile smp 50),
       PromLine.sample (s ++ "_p95") (percentile smp 95)]

/-- Modelled from the spec: `export_prometheus()` concatenates the per-series
line blocks. -/
def exportPrometheus (r : MetricsRegistry) : List PromLine :=
  (r.series.map (fun kv => promLinesFor kv.1 kv.2)).flatten

/-- Modelled from the spec: the JSON value exported for one metric — a typed
scalar for a counter or gauge, and count, sum, p50, p95, p99 for a
histogram. -/
inductive JsonMetric where
  | counterJ (value : Rat)
  | gaugeJ (value : Rat)
  | histogramJ (count : Nat) (sum : Rat) (p50 p95 p99 : Rat)
deriving DecidableEq, Repr

/-- The JSON value for one metric state. -/
def jsonFor : Metric → JsonMetric
  | Metric.counter t => JsonMetric.counterJ t
  | Metric.gauge v => JsonMetric.gaugeJ v
  | Metric.histogram c s smp =>
      JsonMetric.histogramJ c s (percentile smp 50) (percentile smp 95) (percentile smp 99)

/-- Modelled from the spec: `export_json()` is an object keyed by metric
name. -/
def exportJson (r : MetricsRegistry) : List (String × JsonMetric) :=
  r.series.map (fun kv => (kv.1.name, jsonFor kv.2))

/-- Re-aggregation of a histogram from its JSON export: read back the count
and sum carried by the snapshot. -/
def reAggregate : JsonMetric → Option (Nat × Rat)
  | JsonMetric.histogramJ c s _ _ _ => some (c, s)
  | _ => none

/-- The percentile triple a histogram exports, as a function of the metric
state alone. -/
def exportedPercentiles (m : Metric) : Option (Rat × Rat × Rat) :=
  match jsonFor m with
  | JsonMetric.histogramJ _ _ a b c => some (a, b, c)
  | _ => none

/-- Modelled from the spec: alert rule comparison operators. -/
inductive AlertOperator where
  | gt
  | lt
  | ge
  | le
  | eq
  | ne
deriving DecidableEq, Repr

/-- Modelled from the spec: alert severities. -/
inductive AlertSeverity where
  | info
  | warning
  | error
  | critical
deriving DecidableEq, Repr

/-- Modelled from the spec: a threshold alert rule with its cooldown
bookkeeping. -/
structure AlertRule where
  name : String
  metricName : String
  threshold : Rat
  operator : AlertOperator
  severity : AlertSeverity
  messageTemplate : String
  cooldownSeconds : Nat
  enabled : Bool
  lastFiredAt : Option Nat
deriving DecidableEq, Repr

/-- Modelled from the spec: a fired alert, a write-once history entry. -/
structure Alert where
  ruleName : String
  severity : AlertSeverity
  value : Rat
  threshold : Rat
  message : String
  timestamp : Nat
deriving DecidableEq, Repr

/-- Evaluate a rule operator on a value and threshold. -/
def evalOperator : AlertOperator → Rat → Rat → Bool
  | AlertOperator.gt, v, t => decide (t < v)
  | AlertOperator.lt, v, t => decide (v < t)
  | AlertOperator.ge, v, t => decide (t ≤ v)
  | AlertOperator.le, v, t => decide (v ≤ t)
  | AlertOperator.eq, v, t => decide (v = t)
  | AlertOperator.ne, v, t => decide (v ≠ t)

/-- Modelled from the spec: the representative value a rule reads from its
target metric — a counter's current total, a gauge's current value, and for
a histogram the default p95 statistic. -/
def representativeValue : Metric → Rat
  | Metric.counter t => t
  | Metric.gauge v => v
  | Metric.histogram _ _ smp => percentile smp 95

/-- Lookup of the metric a rule targets, by name. -/
def findByName : List (MetricKey × Metric) → String → Option Metric
  | [], _ => none
  | (k, m) :: rest, n => if k.name = n then some m else findByName rest n

/-- Modelled from the spec: the cooldown gate — a rule may fire when it never
fired before, or when now minus last-fired-at is at least the cooldown. -/
def cooldownOk (rule : AlertRule) (now : Nat) : Bool :=
  match rule.lastFiredAt with
  | none => true
  | some t => decide (rule.cooldownSeconds ≤ now - t)

/-- Modelled from the spec: one rule's evaluation against the current metric
snapshot; yields the breaching value when the rule is enabled, its metric
exists, the operator comparison holds, and the cooldown gate passes. -/
def ruleFires (rule : AlertRule) (reg : MetricsRegistry) (now : Nat) : Option Rat :=
  if !rule.enabled then none
  else
    match findByName reg.series rule.metricName with
    | none => none
    | some m =>
      let v := representativeValue m
      if evalOperator rule.operator v rule.threshold then
        if cooldownOk rule now then some v else none
      else none

/-- Construct the Alert appended to history when a rule fires. -/
def mkAlert (rule : AlertRule) (v : Rat) (now : Nat) : Alert :=
  { ruleName := rule.name, severity := rule.severity, value := v,
    threshold := rule.threshold, message := rule.messageTemplate, timestamp := now }

/-- Modelled from the spec: a notification handler is the capability
notify(alert), which may fail by returning false or by raising. -/
def notifySafe (h : Alert → Except String Bool) (a : Alert) : Bool :=
  match h a with
  | Except.ok b => b
  | Except.error _ => false

/-- Modelled from the spec: dispatch an alert to every registered handler; a
handler's failure is caught and recorded, and never blocks the remaining
handlers or the caller. -/
def dispatchAlert (handlers : List (Alert → Except String Bool)) (a : Alert) :
    List Bool :=
  handlers.map (fun h => notifySafe h a)

/-- Modelled from the spec: alert history is capped, oldest evicted first. -/
def capHistory (cap : Nat) (l : List Alert) : List Alert :=
  l.drop (l.length - cap)

/-- Modelled from the spec: the alert engine state (`AlertManager` in
gamma_engine/core/alerting.py, absent from the snapshot). -/
structure AlertEngine where
  rules : List AlertRule
  history : List Alert
  maxHistory : Nat
  handlers : List (Alert → Except String Bool)
  enabled : Bool

/-- The outcome of one `check_metrics()` call: the updated engine, the
alerts fired by this call, and the handler notification results recorded
per fired rule. -/
structure CheckResult where
  engine : AlertEngine
  fired : List Alert
  dispatchLog : List (String × List Bool)

/-- Modelled from the spec: `check_metrics()` evaluates every enabled rule
against the current metric snapshot; on a breach past the cooldown gate it
constructs an Alert, appends it to the capped history, updates the rule's
last-fired-at, and notifies every registered handler. -/
def checkMetrics (e : AlertEngine) (reg : MetricsRegistry) (now : Nat) : CheckResult :=
  if !e.enabled then { engine := e, fired := [], dispatchLog := [] }
  else
    let firedPairs := e.rules.filterMap (fun rule =>
      (ruleFires rule reg now).map (fun v => (rule, mkAlert rule v now)))
    let fired := firedPairs.map (fun p => p.2)
    let rules' := e.rules.map (fun rule =>
      if (ruleFires rule reg now).isSome then { rule with lastFiredAt := some now }
      else rule)
    let hist := capHistory e.maxHistory (e.history ++ fired)
    let log := firedPairs.map (fun p => (p.1.name, dispatchAlert e.handlers p.2))
    { engine := { e with rules := rules', history := hist }, fired := fired, dispatchLog := log }

/-- Run `check_metrics()` once per listed timestamp, in order. -/
def iterateChecks : AlertEngine → MetricsRegistry → List Nat → AlertEngine
  | e, _, [] => e
  | e, reg, t :: ts => iterateChecks (checkMetrics e reg t).engine reg ts

/-- Modelled from the spec: span status. -/
inductive SpanStatus where
  | unset
  | ok
  | error
deriving DecidableEq, Repr

/-- Modelled from the spec: a span — a timed unit of work with attributes,
events, status and optional error detail; the duration is recorded at close
time. -/
structure Span where
  id : Nat
  traceId : Nat
  parentId : Option Nat
  name : String
  startTime : Nat
  endTime : Option Nat
  durationMs : Option Nat
  attributes : List (String × String)
  events : List (Nat × String × List (String × String))
  status : SpanStatus
  errorMessage : Option String
deriving DecidableEq, Repr

/-- Modelled from the spec: the tracing service (`TracingService` in
gamma_engine/core/tracing.py, absent from the snapshot).  The current-span
chain is an explicit context value — here the stack of open spans — rather
than a shared mutable global; closed spans are collected, a logical clock
orders events, and `disable()` turns span bookkeeping off. -/
structure TracingService where
  finished : List Span
  stack : List Span
  nextId : Nat
  clock : Nat
  enabled : Bool
deriving DecidableEq, Repr

/-- Modelled from the spec: a fresh tracer as created at startup. -/
def tracer0 : TracingService :=
  { finished := [], stack := [], nextId := 0, clock := 0, enabled := true }

/-- Modelled from the spec: `start_span(name)` opens a span as a child of
the current span, inheriting the trace id (a root span starts a new trace),
and makes it the current span. -/
def startSpan (t : TracingService) (name : String) : TracingService :=
  if !t.enabled then t
  else
    let parents := t.stack
    let tid := match parents.head? with
      | some p => p.traceId
      | none => t.nextId
    let sp : Span :=
      { id := t.nextId, traceId := tid, parentId := (parents.head?).map (fun p => p.id),
        name := name, startTime := t.clock, endTime := none, durationMs := none,
        attributes := [], events := [], status := SpanStatus.unset, errorMessage := none }
    { t with stack := sp :: t.stack, nextId := t.nextId + 1, clock := t.clock + 1 }

/-- Modelled from the spec: `set_status(status, error?)` on the current
span. -/
def setStatus (t : TracingService) (st : SpanStatus) (err : Option String) :
    TracingService :=
  match t.stack with
  | [] => t
  | s :: rest => { t with stack := { s with status := st, errorMessage := err } :: rest }

/-- Modelled from the spec: `set_attribute(key, value)` on the current
span. -/
def setAttribute (t : TracingService) (key value : String) : TracingService :=
  match t.stack with
  | [] => t
  | s :: rest => { t with stack := { s with attributes := s.attributes ++ [(key, value)] } :: rest }

/-- Modelled from the spec: `add_event(name, attrs)` appends a timestamped
event to the current span. -/
def addEvent (t : TracingService) (name : String) (attrs : List (String × String)) :
    TracingService :=
  match t.stack with
  | [] => t
  | s :: rest =>
    let s' := { s with events := s.events ++ [(t.clock, name, attrs)] }
    { t with stack := s' :: rest, clock := t.clock + 1 }

/-- Modelled from the spec: the finalized form of one open span at close
time — the end time is taken from the clock, the duration is end minus
start, the status defaults to Ok when it was never set and no exception
propagated, and becomes Error with the exception message captured when one
did. -/
def closeSpanAt (s : Span) (endT : Nat) (exc : Option String) : Span :=
  let st := match exc with
    | some _ => SpanStatus.error
    | none => if s.status = SpanStatus.unset then SpanStatus.ok else s.status
  let em := match exc with
    | some m => some m
    | none => s.errorMessage
  { s with endTime := some endT, durationMs := some (endT - s.startTime), status := st, errorMessage := em }

/-- Modelled from the spec: close the current span via `closeSpanAt` and
restore the prior current span.  Closing with an empty stack is a tolerated
no-op. -/
def finishCurrent (t : TracingService) (exc : Option String) : TracingService :=
  match t.stack with
  | [] => t
  | s :: rest =>
    { t with stack := rest, finished := closeSpanAt s t.clock exc :: t.finished, clock := t.clock + 1 }

/-- Modelled from the spec: the scoped form of `start_span` — open the span,
run the body, finalize the span on every exit path including error
propagation, and re-throw the body's exception unchanged.  The body is a
state transformer returning the tracer state it left behind together with
the exception propagating out of the scope, if any. -/
def withSpan (t : TracingService) (name : String)
    (f : TracingService → TracingService × Option String) :
    TracingService × Option String :=
  if !t.enabled then f t
  else
    let r := f (startSpan t name)
    (finishCurrent r.1 r.2, r.2)

/-- The names of the spans a trace export marks as failed: exactly those
whose status is Error. -/
def failedSpanNames (t : TracingService) : List String :=
  (t.finished.filter (fun s => decide (s.status = SpanStatus.error))).map (fun s => s.name)

/-- Spec scenario: the body of the tool span, which raises. -/
def toolBody : TracingService → TracingService × Option String :=
  fun t => (t, some "file not found")

/-- Spec scenario: the body of the agent span — it runs the tool inside its
own child span and catches the tool's error, so no exception propagates out
of the agent scope. -/
def agentBody : TracingService → TracingService × Option String :=
  fun t => ((withSpan t "tool.read_file" toolBody).1, none)

/-- Spec scenario: the nested agent/tool run on a fresh tracer. -/
def scenarioRun : TracingService × Option String :=
  withSpan tracer0 "agent.run" agentBody

/-- A body that raises, used as the concrete instance of a scope an
exception propagates through. -/
def raisingBody : TracingService → TracingService × Option String :=
  fun t => (t, some "boom")

/-- The span that `startSpan tracer0 "risky_operation"` opens. -/
def riskySpan : Span :=
  { id := 0, traceId := 0, parentId := none, name := "risky_operation",
    startTime := 0, endTime := none, durationMs := none, attributes := [],
    events := [], status := SpanStatus.unset, errorMessage := none }

/-- Spec scenario for alerting: the cooldown rule on the CPU gauge. -/
def scenarioRule : AlertRule :=
  { name := "cpu_threshold", metricName := "system.cpu_percent", threshold := 90,
    operator := AlertOperator.gt, severity := AlertSeverity.warning,
    messageTemplate := "cpu high", cooldownSeconds := 60, enabled := true,
    lastFiredAt := none }

/-- Spec scenario for alerting: the registry whose CPU gauge is held at 95. -/
def scenarioRegistry : MetricsRegistry :=
  setGauge emptyRegistry "system.cpu_percent" 95 []

/-- Spec scenario for alerting: the engine holding just the cooldown rule. -/
def scenarioEngine : AlertEngine :=
  { rules := [scenarioRule], history := [], maxHistory := 100, handlers := [],
    enabled := true }

/-- The scenario rule after it has fired at time 100. -/
def firedRule : AlertRule :=
  { scenarioRule with lastFiredAt := some 100 }

/-- The scenario engine after its rule has fired at time 100. -/
def firedEngine : AlertEngine :=
  { scenarioEngine with rules := [firedRule] }

/-- Concrete handler list with a failing first handler, for the
notification-isolation witness. -/
def demoHandlers : List (Alert → Except String Bool) :=
  [fun _ => Except.error "smtp down", fun _ => Except.ok true]

/-- A concrete alert used by the notification-isolation witness. -/
def demoAlert : Alert :=
  { ruleName := "high_error_rate", severity := AlertSeverity.error, value := 12,
    threshold := 10, message := "error rate exceeded", timestamp := 5 }

/-- Concrete registry holding one histogram series, recorded through the
public API, on which the Prometheus export is evaluated. -/
def c3Registry : MetricsRegistry :=
  record (record emptyRegistry "llm.latency_ms" 120 []) "llm.latency_ms" 180 []

/-- Concrete registry holding a counter and a histogram, used by the export
witnesses. -/
def promRegistry : MetricsRegistry :=
  record (increment emptyRegistry "agent.runs.total" 42 []) "llm.latency_ms" 120 []

/-- Fold a list of increment deltas over the registry: the sequential
execution of one interleaving of concurrent increment calls against a single
series, each increment being atomic (linearizable per the spec). -/
def applyIncrements (r : MetricsRegistry) (n : String) (lb : List (String × String))
    (ds : List Rat) : MetricsRegistry :=
  ds.foldl (fun acc d => increment acc n d lb) r

/-- Concrete registry holding one histogram series with literal aggregates,
used by several witnesses. -/
def histRegistry : MetricsRegistry :=
  { series := [({ name := "llm.latency_ms", labels := [] },
      Metric.histogram 10 1250 [120, 180, 95])], maxSamples := 1000, enabled := true }

theorem string_data_inj {a b : String} (h : a.data = b.data) : a = b := by
  cases a
  cases b
  exact congrArg String.mk h

theorem lookupSeries_updateSeries_self (l : List (MetricKey × Metric)) (k : MetricKey)
    (m : Metric) : lookupSeries (updateSeries l k m) k = some m := by
  induction l with
  | nil => simp [updateSeries, lookupSeries]
  | cons kv rest ih =>
    obtain ⟨k', m'⟩ := kv
    by_cases h : k' = k
    · simp [updateSeries, h, lookupSeries]
    · simp [updateSeries, h, lookupSeries, ih]

theorem increment_enabled (r : MetricsRegistry) (n : String) (d : Rat)
    (lb : List (String × String)) : (increment r n d lb).enabled = r.enabled := by
  simp only [increment]
  split
  · rfl
  · split <;> rfl

theorem getMetric_increment_counter {r : MetricsRegistry} {n : String}
    {lb : List (String × String)} {c : Rat} (d : Rat) (he : r.enabled = true)
    (h : getMetric r n lb = some (Metric.counter c)) :
    getMetric (increment r n d lb) n lb = some (Metric.counter (c + d)) := by
  unfold getMetric at h ⊢
  unfold increment
  rw [he]
  simp only [Bool.not_true, Bool.false_eq_true, if_false]
  rw [h]
  simp [lookupSeries_updateSeries_self]

theorem getMetric_increment_fresh {r : MetricsRegistry} {n : String}
    {lb : List (String × String)} (d : Rat) (he : r.enabled = true)
    (h : getMetric r n lb = none) :
    getMetric (increment r n d lb) n lb = some (Metric.counter d) := by
  unfold getMetric at h ⊢
  unfold increment
  rw [he]
  simp only [Bool.not_true, Bool.false_eq_true, if_false]
  rw [h]
  simp [lookupSeries_updateSeries_self]

theorem applyIncrements_counter {r : MetricsRegistry} {n : String}
    {lb : List (String × String)} {c : Rat} (ds : List Rat) (he : r.enabled = true)
    (h : getMetric r n lb = some (Metric.counter c)) :
    getMetric (applyIncrements r n lb ds) n lb = some (Metric.counter (c + ds.sum)) := by
  induction ds generalizing r c with
  | nil => simpa [applyIncrements] using h
  | cons d ds ih =>
    have he1 : (increment r n d lb).enabled = true := by rw [increment_enabled]; exact he
    have h1 := getMetric_increment_counter d he h
    have h2 := ih he1 h1
    simpa [applyIncrements, add_assoc] using h2

/-- Claim C2: for every counter series and every N concurrent increment
calls with deltas d1..dN against that same series, the counter's final value
equals d1 + ... + dN with no lost updates.  Per the spec the per-series
operations are linearizable, so a concurrent execution is modelled as the
sequential application of the atomic increments in an arbitrary
interleaving order, quantified here as any permutation of the deltas. -/
theorem concurrent_increments_no_lost_updates
    (r : MetricsRegistry) (n : String) (lb : List (String × String))
    (ds p : List Rat) (he : r.enabled = true)
    (hfresh : getMetric r n lb = none) (hne : ds ≠ []) (hperm : p.Perm ds) :
    getMetric (applyIncrements r n lb p) n lb = some (Metric.counter ds.sum) := by
  cases p with
  | nil =>
    exact absurd (List.perm_nil.mp hperm.symm) hne
  | cons d p' =>
    have he1 : (increment r n d lb).enabled = true := by
      rw [increment_enabled]; exact he
    have h1 := getMetric_increment_fresh d he hfresh
    have h2 := applyIncrements_counter p' he1 h1
    have hsum : d + p'.sum = ds.sum := by
      rw [← List.sum_cons]
      exact hperm.sum_eq
    rw [← hsum]
    simpa [applyIncrements] using h2

/-- Witness for C2: the spec scenario — three concurrent increments of
tool.calls.total with label tool=search yield a counter value of 3. -/
theorem concurrent_increments_witness :
    getMetric (applyIncrements emptyRegistry "tool.calls.total" [("tool", "search")]
      [1, 1, 1]) "tool.calls.total" [("tool", "search")] = some (Metric.counter 3) := by
  have h := concurrent_increments_no_lost_updates emptyRegistry "tool.calls.total"
    [("tool", "search")] [1, 1, 1] [1, 1, 1] rfl rfl (by decide) (List.Perm.refl _)
  have hsum : ([1, 1, 1] : List Rat).sum = 3 := by norm_num
  rw [hsum] at h
  exact h

theorem applyIncrements_disabled (n : String) (lb : List (String × String))
    (ds : List Rat) (r : MetricsRegistry) (h : r.enabled = false) :
    applyIncrements r n lb ds = r := by
  induction ds generalizing r with
  | nil => rfl
  | cons d ds ih =>
    have hstep : increment r n d lb = r := by simp [increment, h]
    calc applyIncrements r n lb (d :: ds)
        = applyIncrements (increment r n d lb) n lb ds := rfl
      _ = applyIncrements r n lb ds := by rw [hstep]
      _ = r := ih r h

/-- Claim C9: after disable() every mutating call — increment, record,
set_gauge, collect_system_metrics — leaves the registry unchanged and raises
no error (all operations are total functions returning the registry itself);
in particular, after disable() followed by 100 increment calls on a fresh
metric name, get_metric reports the explicit absent result. -/
theorem disable_makes_mutators_noops (r : MetricsRegistry) (n : String) (d v : Rat)
    (lb : List (String × String)) (st : SystemStats) :
    increment (disable r) n d lb = disable r ∧
    record (disable r) n v lb = disable r ∧
    setGauge (disable r) n v lb = disable r ∧
    collectSystemMetrics (disable r) st = disable r ∧
    getMetric (applyIncrements (disable emptyRegistry) "fresh.metric" []
      (List.replicate 100 1)) "fresh.metric" [] = none := by
  refine ⟨?_, ?_, ?_, ?_, ?_⟩
  · simp [increment, disable]
  · simp [record, disable]
  · simp [setGauge, disable]
  · simp [collectSystemMetrics, setGauge, disable]
  · rw [applyIncrements_disabled _ _ _ _ rfl]
    rfl

theorem nearestRankIndex_mono (n : Nat) {p q : Nat} (h : p ≤ q) :
    nearestRankIndex n p ≤ nearestRankIndex n q := by
  unfold nearestRankIndex
  refine min_le_min (le_refl _) ?_
  exact Nat.sub_le_sub_right (Nat.div_le_div_right
    (Nat.add_le_add_right (Nat.mul_le_mul_right n h) 99)) 1

theorem nearestRankIndex_lt (n p : Nat) (hn : 0 < n) : nearestRankIndex n p < n := by
  unfold nearestRankIndex
  exact lt_of_le_of_lt (min_le_left _ _) (by omega)

theorem nearestRank_mono (l : List Rat) (hl : l.Sorted (fun a b => a ≤ b))
    (hne : l ≠ []) {p q : Nat} (h : p ≤ q) : nearestRank l p ≤ nearestRank l q := by
  have hn : 0 < l.length := List.length_pos.mpr hne
  have hip : nearestRankIndex l.length p < l.length := nearestRankIndex_lt _ _ hn
  have hiq : nearestRankIndex l.length q < l.length := nearestRankIndex_lt _ _ hn
  unfold nearestRank
  rw [List.getD_eq_getElem l 0 hip, List.getD_eq_getElem l 0 hiq]
  have hidx : nearestRankIndex l.length p ≤ nearestRankIndex l.length q :=
    nearestRankIndex_mono _ h
  exact List.Sorted.rel_get_of_le hl hidx

theorem percentile_mono (smp : List Rat) (hne : smp ≠ []) {p q : Nat} (h : p ≤ q) :
    percentile smp p ≤ percentile smp q := by
  unfold percentile
  have hperm := List.perm_insertionSort (fun a b => a ≤ b) smp
  have hne' : smp.insertionSort (fun a b => a ≤ b) ≠ [] := by
    intro hcon
    apply hne
    have := hperm.length_eq
    rw [hcon] at this
    exact List.length_eq_zero.mp this.symm
  exact nearestRank_mono _ (List.sorted_insertionSort _ smp) hne' h

/-- Claim C5: for every histogram series with a non-empty reservoir, the
exported percentiles are ordered: p50 ≤ p95 ≤ p99. -/
theorem histogram_percentiles_ordered (r : MetricsRegistry) (k : MetricKey)
    (c : Nat) (s : Rat) (smp : List Rat)
    (hmem : (k, Metric.histogram c s smp) ∈ r.series) (hne : smp ≠ []) :
    (k.name, JsonMetric.histogramJ c s (percentile smp 50) (percentile smp 95)
      (percentile smp 99)) ∈ exportJson r ∧
    percentile smp 50 ≤ percentile smp 95 ∧
    percentile smp 95 ≤ percentile smp 99 := by
  refine ⟨?_, ?_, ?_⟩
  · unfold exportJson
    exact List.mem_map.mpr ⟨(k, Metric.histogram c s smp), hmem, rfl⟩
  · exact percentile_mono smp hne (by omega)
  · exact percentile_mono smp hne (by omega)

/-- Witness for C5: the ordering at the concrete histogram reservoir
[120, 180, 95]. -/
theorem histogram_percentiles_ordered_witness :
    percentile [120, 180, 95] 50 ≤ percentile [120, 180, 95] 95 ∧
    percentile [120, 180, 95] 95 ≤ percentile [120, 180, 95] 99 := by
  have h := histogram_percentiles_ordered histRegistry
    { name := "llm.latency_ms", labels := [] } 10 1250 [120, 180, 95]
    (by decide) (by decide)
  exact ⟨h.2.1, h.2.2⟩

/-- Claim C4: record appends the value to a capped reservoir (evicting the
oldest retained sample when capacity is exceeded), and the exported
p50/p95/p99 are a deterministic function of the current reservoir contents,
computed by sorting the retained samples and taking nearest-rank
selection. -/
theorem record_reservoir_policy
    (r : MetricsRegistry) (n : String) (v : Rat) (lb : List (String × String))
    (c : Nat) (s : Rat) (smp : List Rat)
    (he : r.enabled = true) (hm : getMetric r n lb = some (Metric.histogram c s smp)) :
    getMetric (record r n v lb) n lb =
      some (Metric.histogram (c + 1) (s + v) (pushSample r.maxSamples smp v)) ∧
    (smp.length < r.maxSamples → pushSample r.maxSamples smp v = smp ++ [v]) ∧
    (smp.length = r.maxSamples → 0 < r.maxSamples →
      pushSample r.maxSamples smp v = smp.drop 1 ++ [v]) ∧
    (∀ c₁ s₁ c₂ s₂, exportedPercentiles (Metric.histogram c₁ s₁ smp) =
      exportedPercentiles (Metric.histogram c₂ s₂ smp)) ∧
    (∀ p, percentile smp p = nearestRank (smp.insertionSort (fun a b => a ≤ b)) p) := by
  refine ⟨?_, ?_, ?_, ?_, ?_⟩
  · unfold getMetric at hm ⊢
    unfold record
    rw [he]
    simp only [Bool.not_true, Bool.false_eq_true, if_false]
    rw [hm]
    simp [lookupSeries_updateSeries_self]
  · intro hlt
    unfold pushSample
    have : smp.length + 1 - r.maxSamples = 0 := by omega
    simp [this]
  · intro hEq hpos
    show (smp ++ [v]).drop ((smp ++ [v]).length - r.maxSamples) = smp.drop 1 ++ [v]
    have h1 : (smp ++ [v]).length - r.maxSamples = 1 := by simp; omega
    rw [h1]
    have hle : 1 ≤ smp.length := by omega
    exact List.drop_append_of_le_length hle
  · intro c₁ s₁ c₂ s₂
    rfl
  · intro p
    rfl

/-- Witness for C4: at the concrete histogram reservoir [120, 180, 95] with
capacity 1000, recording 99 appends, and percentiles depend on the reservoir
only. -/
theorem record_reservoir_policy_witness :
    pushSample histRegistry.maxSamples [120, 180, 95] 99 = [120, 180, 95, 99] ∧
    exportedPercentiles (Metric.histogram 7 1 [120, 180, 95]) =
      exportedPercentiles (Metric.histogram 10 1250 [120, 180, 95]) := by
  have h := record_reservoir_policy histRegistry "llm.latency_ms" 99 [] 10 1250
    [120, 180, 95] rfl (by decide)
  exact ⟨h.2.1 (by decide), h.2.2.2.1 7 1 10 1250⟩

/-- Claim C8: the JSON snapshot of a histogram carries count, sum, p50, p95
and p99, and re-aggregating the exported object reproduces exactly the
count and sum the live histogram held at export time. -/
theorem json_roundtrip_histogram (r : MetricsRegistry) (k : MetricKey)
    (c : Nat) (s : Rat) (smp : List Rat)
    (hmem : (k, Metric.histogram c s smp) ∈ r.series) :
    (k.name, JsonMetric.histogramJ c s (percentile smp 50) (percentile smp 95)
      (percentile smp 99)) ∈ exportJson r ∧
    reAggregate (JsonMetric.histogramJ c s (percentile smp 50) (percentile smp 95)
      (percentile smp 99)) = some (c, s) := by
  constructor
  · unfold exportJson
    exact List.mem_map.mpr ⟨(k, Metric.histogram c s smp), hmem, rfl⟩
  · rfl

/-- Witness for C8: the round trip at the concrete histogram with count 10
and sum 1250. -/
theorem json_roundtrip_histogram_witness :
    ("llm.latency_ms", JsonMetric.histogramJ 10 1250 (percentile [120, 180, 95] 50)
      (percentile [120, 180, 95] 95) (percentile [120, 180, 95] 99)) ∈
        exportJson histRegistry ∧
    reAggregate (JsonMetric.histogramJ 10 1250 (percentile [120, 180, 95] 50)
      (percentile [120, 180, 95] 95) (percentile [120, 180, 95] 99)) =
        some (10, 1250) := by
  exact json_roundtrip_histogram histRegistry { name := "llm.latency_ms", labels := [] }
    10 1250 [120, 180, 95] (by decide)

theorem ruleFires_none_in_cooldown (rule : AlertRule) (reg : MetricsRegistry)
    (t now : Nat) (hlast : rule.lastFiredAt = some t) (h1 : t ≤ now)
    (h2 : now < t + rule.cooldownSeconds) : ruleFires rule reg now = none := by
  have hc : cooldownOk rule now = false := by
    unfold cooldownOk
    rw [hlast]
    simp only [decide_eq_false_iff_not]
    omega
  unfold ruleFires
  split
  · rfl
  · split
    · rfl
    · simp [hc]

/-- Claim C1: once a rule has fired at time t, no further Alert for that
rule is appended to history and no handler is notified for that rule by any
check_metrics() call before t plus the cooldown, regardless of how many
breaches are observed; and the spec scenario — a gauge held at 95 against a
threshold-90 rule with cooldown 60 across 10 checks within 10 seconds —
yields exactly one Alert in history. -/
theorem cooldown_suppresses_refiring
    (e : AlertEngine) (reg : MetricsRegistry) (r : AlertRule) (t now : Nat)
    (huniq : ∀ r' ∈ e.rules, r'.name = r.name → r' = r)
    (hlast : r.lastFiredAt = some t)
    (h1 : t ≤ now) (h2 : now < t + r.cooldownSeconds) :
    (∀ a ∈ (checkMetrics e reg now).fired, a.ruleName ≠ r.name) ∧
    (∀ pr ∈ (checkMetrics e reg now).dispatchLog, pr.1 ≠ r.name) ∧
    (∀ a ∈ (checkMetrics e reg now).engine.history, a.ruleName = r.name → a ∈ e.history) ∧
    (iterateChecks scenarioEngine scenarioRegistry
      [0, 1, 2, 3, 4, 5, 6, 7, 8, 9]).history.length = 1 := by
  have hnone := ruleFires_none_in_cooldown r reg t now hlast h1 h2
  have key : ∀ pr ∈ e.rules.filterMap (fun rule =>
      (ruleFires rule reg now).map (fun v => (rule, mkAlert rule v now))),
      pr.1.name ≠ r.name := by
    intro pr hpr hname
    obtain ⟨rule, hrule, hmap⟩ := List.mem_filterMap.mp hpr
    obtain ⟨v, hv, hpr2⟩ := Option.map_eq_some'.mp hmap
    have hruleName : rule.name = r.name := by rw [← hpr2] at hname; exact hname
    have : rule = r := huniq rule hrule hruleName
    rw [this, hnone] at hv
    exact Option.noConfusion hv
  cases hEn : e.enabled with
  | false =>
    refine ⟨?_, ?_, ?_, by decide⟩ <;> simp [checkMetrics, hEn]
    exact fun a ha _ => ha
  | true =>
    have hck : checkMetrics e reg now =
        { engine := { e with
            rules := e.rules.map (fun rule =>
              if (ruleFires rule reg now).isSome then { rule with lastFiredAt := some now }
              else rule),
            history := capHistory e.maxHistory (e.history ++
              (e.rules.filterMap (fun rule => (ruleFires rule reg now).map
                (fun v => (rule, mkAlert rule v now)))).map (fun p => p.2)) },
          fired := (e.rules.filterMap (fun rule => (ruleFires rule reg now).map
            (fun v => (rule, mkAlert rule v now)))).map (fun p => p.2),
          dispatchLog := (e.rules.filterMap (fun rule => (ruleFires rule reg now).map
            (fun v => (rule, mkAlert rule v now)))).map
              (fun p => (p.1.name, dispatchAlert e.handlers p.2)) } := by
      unfold checkMetrics
      rw [hEn]
      rfl
    refine ⟨?_, ?_, ?_, by decide⟩
    · intro a ha
      rw [hck] at ha
      obtain ⟨pr, hpr, hpr2⟩ := List.mem_map.mp ha
      obtain ⟨rule, hrule, hmap⟩ := List.mem_filterMap.mp hpr
      obtain ⟨v, hv, hpr3⟩ := Option.map_eq_some'.mp hmap
      intro hname
      apply key pr hpr
      rw [← hpr3]
      rw [← hpr3] at hpr2
      simp only at hpr2
      rw [← hpr2] at hname
      exact hname
    · intro pr hpr
      rw [hck] at hpr
      obtain ⟨q, hq, hq2⟩ := List.mem_map.mp hpr
      intro hname
      apply key q hq
      rw [← hq2] at hname
      exact hname
    · intro a ha hname
      rw [hck] at ha
      have ha2 := List.mem_of_mem_drop ha
      rcases List.mem_append.mp ha2 with hin | hin
      · exact hin
      · exfalso
        obtain ⟨pr, hpr, hpr2⟩ := List.mem_map.mp hin
        apply key pr hpr
        obtain ⟨rule, hrule, hmap⟩ := List.mem_filterMap.mp hpr
        obtain ⟨v, hv, hpr3⟩ := Option.map_eq_some'.mp hmap
        rw [← hpr3]
        rw [← hpr3] at hpr2
        simp only at hpr2
        rw [← hpr2] at hname
        exact hname

/-- Witness for C1: the scenario rule that fired at time 100 is suppressed
at a check at time 130 (inside the 60-second cooldown window), and the
10-checks scenario leaves exactly one alert in history. -/
theorem cooldown_suppresses_refiring_witness :
    (iterateChecks scenarioEngine scenarioRegistry
      [0, 1, 2, 3, 4, 5, 6, 7, 8, 9]).history.length = 1 := by
  have h := cooldown_suppresses_refiring firedEngine scenarioRegistry firedRule 100 130
    (by decide) rfl (by decide) (by decide)
  exact h.2.2.2

/-- Claim C6: for a span closed via its scoped handle — the recorded
duration equals end minus start; the status on close is Ok when set_status
was never called (status still Unset) and no exception propagated, and
Error with the exception message captured when one did; the exception is
re-thrown unchanged; the prior current-span context is restored so the
parent is untouched by the child's close; and in the spec scenario, where
the agent catches the tool error between the two scopes, only the child
span is marked failed. -/
theorem scoped_span_close_semantics
    (t : TracingService) (name : String)
    (f : TracingService → TracingService × Option String)
    (t2 : TracingService) (exc : Option String) (s : Span)
    (ht : t.enabled = true)
    (hf : f (startSpan t name) = (t2, exc))
    (hs : t2.stack = s :: t.stack) :
    (withSpan t name f).2 = exc ∧
    (withSpan t name f).1.stack = t.stack ∧
    (∃ c, (withSpan t name f).1.finished = c :: t2.finished ∧
      c.endTime = some t2.clock ∧
      c.durationMs = some (t2.clock - s.startTime) ∧
      c.startTime = s.startTime ∧
      (exc = none → s.status = SpanStatus.unset → c.status = SpanStatus.ok) ∧
      (∀ m, exc = some m → c.status = SpanStatus.error ∧ c.errorMessage = some m)) ∧
    failedSpanNames scenarioRun.1 = ["tool.read_file"] ∧
    scenarioRun.1.finished.map (fun sp => (sp.name, sp.status, sp.errorMessage)) =
      [("agent.run", SpanStatus.ok, none),
       ("tool.read_file", SpanStatus.error, some "file not found")] := by
  have hw : withSpan t name f = (finishCurrent t2 exc, exc) := by
    unfold withSpan
    rw [ht]
    simp [hf]
  have hstk : (finishCurrent t2 exc).stack = t.stack := by
    unfold finishCurrent
    rw [hs]
  have hfin : (finishCurrent t2 exc).finished = closeSpanAt s t2.clock exc :: t2.finished := by
    unfold finishCurrent
    rw [hs]
  refine ⟨by rw [hw], by rw [hw]; exact hstk, ?_, by decide, by decide⟩
  refine ⟨closeSpanAt s t2.clock exc, by rw [hw]; exact hfin, rfl, rfl, rfl, ?_, ?_⟩
  · intro hnone hunset
    simp [closeSpanAt, hnone, hunset]
  · intro m hm
    simp [closeSpanAt, hm]

/-- Witness for C6: a scope whose body raises the exception boom — the
exception is re-thrown unchanged and the current-span context is
restored. -/
theorem scoped_span_close_witness :
    (withSpan tracer0 "risky_operation" raisingBody).2 = some "boom" ∧
    (withSpan tracer0 "risky_operation" raisingBody).1.stack = [] := by
  have h := scoped_span_close_semantics tracer0 "risky_operation" raisingBody
    (startSpan tracer0 "risky_operation") (some "boom") riskySpan rfl rfl (by decide)
  exact ⟨h.1, h.2.1⟩

theorem dispatchAlert_length (handlers : List (Alert → Except String Bool)) (a : Alert) :
    (dispatchAlert handlers a).length = handlers.length :=
  List.length_map handlers _

/-- Claim C7: when some handler's notify call fails (returns failure or
raises), the failure is caught and recorded as a false entry, every handler
is still invoked with the same alert (the result list has one entry per
handler, each computed from that handler on that alert), and no error
propagates to the caller — dispatch totally returns the result list. -/
theorem handler_failure_does_not_block
    (handlers : List (Alert → Except String Bool)) (a : Alert)
    (i : Fin handlers.length) (msg : String)
    (hfail : handlers.get i a = Except.error msg) :
    (dispatchAlert handlers a).length = handlers.length ∧
    (∀ j : Fin handlers.length,
      (dispatchAlert handlers a).get
        (Fin.cast (dispatchAlert_length handlers a).symm j) =
          notifySafe (handlers.get j) a) ∧
    (dispatchAlert handlers a).get
      (Fin.cast (dispatchAlert_length handlers a).symm i) = false := by
  have hget : ∀ j : Fin handlers.length,
      (dispatchAlert handlers a).get
        (Fin.cast (dispatchAlert_length handlers a).symm j) =
          notifySafe (handlers.get j) a := by
    intro j
    simp only [dispatchAlert, List.get_eq_getElem, List.getElem_map, Fin.coe_cast]
  refine ⟨dispatchAlert_length handlers a, hget, ?_⟩
  rw [hget i]
  unfold notifySafe
  rw [hfail]

/-- Witness for C7: with a failing first handler and a succeeding second
one, dispatch still produces one recorded result per handler. -/
theorem handler_failure_witness :
    (dispatchAlert demoHandlers demoAlert).length = demoHandlers.length ∧
    dispatchAlert demoHandlers demoAlert = [false, true] := by
  have h := handler_failure_does_not_block demoHandlers demoAlert
    ⟨0, by decide⟩ "smtp down" rfl
  exact ⟨h.1, rfl⟩

theorem map_sanitizeChar_ne (l : List Char) (h : '.' ∈ l) :
    l.map (fun c => if c = '.' then '_' else c) ≠ l := by
  induction l with
  | nil => cases h
  | cons a l ih =>
    by_cases ha : a = '.'
    · subst ha
      simp only [List.map_cons, if_pos rfl]
      intro hEq
      injection hEq with h1 h2
      exact absurd h1 (by decide)
    · simp only [List.map_cons, if_neg ha]
      intro hEq
      injection hEq with h1 h2
      have hl : '.' ∈ l := by
        rcases List.mem_cons.mp h with h' | h'
        · exact absurd h'.symm ha
        · exact h'
      exact ih hl h2

theorem sanitizeName_ne_self (n : String) (h : '.' ∈ n.data) : sanitizeName n ≠ n := by
  intro hEq
  have hd : (sanitizeName n).data = n.data := by rw [hEq]
  exact map_sanitizeChar_ne n.data h hd

theorem string_append_right_ne (s : String) {a b : String} (h : a ≠ b) :
    s ++ a ≠ s ++ b := by
  intro hEq
  apply h
  apply string_data_inj
  have hd : (s ++ a).data = (s ++ b).data := by rw [hEq]
  rw [String.data_append, String.data_append] at hd
  exact List.append_cancel_left hd

theorem string_ne_append_of_data_ne_nil (s a : String) (ha : a.data ≠ []) :
    s ≠ s ++ a := by
  intro hEq
  apply ha
  have hd : s.data = s.data ++ a.data := by
    conv_lhs => rw [hEq]
    rw [String.data_append]
  have hlen := congrArg List.length hd
  rw [List.length_append] at hlen
  have hz : a.data.length = 0 := by omega
  exact List.length_eq_zero.mp hz

theorem promLinesFor_subset_export (r : MetricsRegistry) (k : MetricKey) (m : Metric)
    (hmem : (k, m) ∈ r.series) {l : PromLine} (hl : l ∈ promLinesFor k m) :
    l ∈ exportPrometheus r := by
  unfold exportPrometheus
  exact List.mem_flatten.mpr ⟨promLinesFor k m, List.mem_map.mpr ⟨(k, m), hmem, rfl⟩, hl⟩

/-- Counterexample to claim C3 as stated: the repository's documented
Prometheus text output carries count, sum, p50 and p95 lines for a
histogram but no line suffixed with p99 — at the concrete registry holding
one histogram series llm.latency_ms, no exported line is named
llm_latency_ms_p99. -/
theorem export_prometheus_no_p99_counterexample :
    ((exportPrometheus c3Registry).map promLineName).contains "llm_latency_ms_p99" =
      false := by
  decide

/-- Claim C3 (amended): export_prometheus emits, per counter or gauge, a
HELP line, a TYPE line naming the kind, and a name-value sample line; and
per histogram, lines suffixed _count, _sum, _p50 and _p95 — but no
_p99-suffixed line in the Prometheus text export; the p99 statistic appears
only in the JSON export. -/
theorem export_prometheus_line_structure (r : MetricsRegistry) (k : MetricKey)
    (m : Metric) (hmem : (k, m) ∈ r.series) :
    PromLine.help (sanitizeName k.name) k.name ∈ exportPrometheus r ∧
    PromLine.typ (sanitizeName k.name) (metricKind m) ∈ exportPrometheus r ∧
    (∀ v, m = Metric.counter v →
      PromLine.sample (sanitizeName k.name) v ∈ exportPrometheus r) ∧
    (∀ v, m = Metric.gauge v →
      PromLine.sample (sanitizeName k.name) v ∈ exportPrometheus r) ∧
    (∀ c s smp, m = Metric.histogram c s smp →
      PromLine.sample (sanitizeName k.name ++ "_count") (c : Rat) ∈ exportPrometheus r ∧
      PromLine.sample (sanitizeName k.name ++ "_sum") s ∈ exportPrometheus r ∧
      PromLine.sample (sanitizeName k.name ++ "_p50") (percentile smp 50) ∈
        exportPrometheus r ∧
      PromLine.sample (sanitizeName k.name ++ "_p95") (percentile smp 95) ∈
        exportPrometheus r ∧
      (∀ l ∈ promLinesFor k m, promLineName l ≠ sanitizeName k.name ++ "_p99") ∧
      (k.name, JsonMetric.histogramJ c s (percentile smp 50) (percentile smp 95)
        (percentile smp 99)) ∈ exportJson r) := by
  refine ⟨?_, ?_, ?_, ?_, ?_⟩
  · refine promLinesFor_subset_export r k m hmem ?_
    cases m <;> simp [promLinesFor]
  · refine promLinesFor_subset_export r k m hmem ?_
    cases m <;> simp [promLinesFor, metricKind]
  · intro v hv
    subst hv
    refine promLinesFor_subset_export r k _ hmem ?_
    simp [promLinesFor]
  · intro v hv
    subst hv
    refine promLinesFor_subset_export r k _ hmem ?_
    simp [promLinesFor]
  · intro c s smp hm
    subst hm
    refine ⟨?_, ?_, ?_, ?_, ?_, ?_⟩
    · refine promLinesFor_subset_export r k _ hmem ?_
      simp [promLinesFor]
    · refine promLinesFor_subset_export r k _ hmem ?_
      simp [promLinesFor]
    · refine promLinesFor_subset_export r k _ hmem ?_
      simp [promLinesFor]
    · refine promLinesFor_subset_export r k _ hmem ?_
      simp [promLinesFor]
    · intro l hl
      have hcases := hl
      simp [promLinesFor] at hcases
      rcases hcases with h | h | h | h | h | h <;> subst h <;> simp [promLineName]
      · exact string_ne_append_of_data_ne_nil _ _ (by decide)
      · exact string_ne_append_of_data_ne_nil _ _ (by decide)
      · exact string_append_right_ne _ (by decide)
      · exact string_append_right_ne _ (by decide)
      · exact string_append_right_ne _ (by decide)
      · exact string_append_right_ne _ (by decide)
    · unfold exportJson
      exact List.mem_map.mpr ⟨(k, Metric.histogram c s smp), hmem, rfl⟩

/-- Witness for the amended C3 at a concrete registry: the counter TYPE
line and the histogram p95 sample line are present in the export. -/
theorem export_prometheus_line_structure_witness :
    PromLine.typ "agent_runs_total" "counter" ∈ exportPrometheus promRegistry ∧
    PromLine.sample "llm_latency_ms_p95" (percentile [120] 95) ∈
      exportPrometheus promRegistry := by
  have h1 := export_prometheus_line_structure promRegistry
    { name := "agent.runs.total", labels := [] } (Metric.counter 42) (by decide)
  have h2 := export_prometheus_line_structure promRegistry
    { name := "llm.latency_ms", labels := [] } (Metric.histogram 1 120 [120]) (by decide)
  constructor
  · have hsan : sanitizeName "agent.runs.total" = "agent_runs_total" := by decide
    have hmemb := h1.2.1
    rw [hsan] at hmemb
    simpa [metricKind] using hmemb
  · have hsan : sanitizeName "llm.latency_ms" ++ "_p95" = "llm_latency_ms_p95" := by decide
    have hmemb := (h2.2.2.2.2 1 120 [120] rfl).2.2.2.1
    rw [hsan] at hmemb
    exact hmemb

/-- Claim C10: in the Prometheus text export, every counter or gauge
metric's dotted name is rewritten with each dot replaced by an underscore
in the TYPE line and the sample line, while the HELP line carries the
original dotted name as the help text; so the sample line does not use the
registered name verbatim whenever that name contains a dot, as in the
documented example where agent.runs.total is exported as
agent_runs_total. -/
theorem prometheus_name_sanitization (r : MetricsRegistry) (k : MetricKey)
    (m : Metric) (v : Rat) (hmem : (k, m) ∈ r.series)
    (hcg : m = Metric.counter v ∨ m = Metric.gauge v) :
    PromLine.help (sanitizeName k.name) k.name ∈ exportPrometheus r ∧
    PromLine.typ (sanitizeName k.name) (metricKind m) ∈ exportPrometheus r ∧
    PromLine.sample (sanitizeName k.name) v ∈ exportPrometheus r ∧
    ('.' ∈ k.name.data → sanitizeName k.name ≠ k.name) ∧
    sanitizeName "agent.runs.total" = "agent_runs_total" := by
  refine ⟨?_, ?_, ?_, sanitizeName_ne_self k.name, by decide⟩
  · refine promLinesFor_subset_export r k m hmem ?_
    cases m <;> simp [promLinesFor]
  · refine promLinesFor_subset_export r k m hmem ?_
    cases m <;> simp [promLinesFor, metricKind]
  · refine promLinesFor_subset_export r k m hmem ?_
    rcases hcg with hv | hv <;> subst hv <;> simp [promLinesFor]

/-- Witness for C10: the HELP line of the concrete counter carries the
dotted name while its exported metric name is the sanitized one, which
differs from the registered name. -/
theorem prometheus_name_sanitization_witness :
    PromLine.help "agent_runs_total" "agent.runs.total" ∈ exportPrometheus promRegistry ∧
    sanitizeName "agent.runs.total" ≠ "agent.runs.total" := by
  have h := prometheus_name_sanitization promRegistry
    { name := "agent.runs.total", labels := [] } (Metric.counter 42) 42 (by decide)
    (Or.inl rfl)
  have hsan : sanitizeName "agent.runs.total" = "agent_runs_total" := by decide
  constructor
  · have hmemb := h.1
    rw [hsan] at hmemb
    exact hmemb
  · exact h.2.2.2.1 (by decide)
